import Mathlib

/-!
Formal model of the mix-tips audio analyzer (`src/app.py`): the record
store (JSON upsert keyed by email and content hash), the identity
resolver (stable filename / project-number allocation), the advisory
tips engine, and the audio feature-extraction pipeline.

Python dicts are modelled as insertion-ordered association lists over a
scalar value type; timestamps are passed in explicitly; the backing JSON
file is modelled by explicit state passing of the record list.
-/

namespace MixTips

/-- Scalar values stored in a record: strings and numbers (Python `str`
and `int`/`float` fields are the only value shapes the app writes). -/
inductive Val where
  | str (s : String)
  | num (q : ℚ)
deriving DecidableEq, Repr

/-- A persisted record: a Python dict modelled as an insertion-ordered
association list from field name to scalar value. -/
abbrev Record := List (String × Val)

/-- Python `d.get(k)`: value of the first entry carrying the key. -/
def lookupVal : Record → String → Option Val
  | [], _ => none
  | (k', v) :: rest, k => if k' = k then some v else lookupVal rest k

/-- Python truthiness for the values that occur in records
(`""` and `0` are falsy). -/
def truthy : Val → Bool
  | .str s => decide (s ≠ "")
  | .num q => decide (q ≠ 0)

/-- Python `d[k] = v`: overwrite the value of the key in place, or
append a new entry at the end. -/
def dictSet : Record → String → Val → Record
  | [], k, v => [(k, v)]
  | (k', v') :: rest, k, v =>
      if k' = k then (k, v) :: rest else (k', v') :: dictSet rest k v

/-- Python `d.update(other)`: overwrite values of shared keys in place,
append keys not present in `d` at the end in `other`'s order. -/
def dictUpdate (d other : Record) : Record :=
  (d.map fun kv =>
    (kv.1,
      match lookupVal other kv.1 with
      | some v => v
      | none => kv.2)) ++
  other.filter fun kv => (lookupVal d kv.1).isNone

/-- Index of the first record satisfying the predicate (the source's
`for i, rec in enumerate(data)` scan loops). -/
def find_first (p : Record → Bool) : List Record → Option Nat
  | [] => none
  | r :: rest => if p r then some 0 else (find_first p rest).map (· + 1)

/-- States of the backing JSON file (`all_feedbacks.json`), abstracting
the outcome of `json.load`: file absent, present but zero-size,
`json.load` raising, parsing to a non-list value, or parsing to a list
of records. -/
inductive StoreFile where
  | missing
  | empty
  | unparsable
  | parsedNonList
  | parsedList (records : List Record)
deriving DecidableEq

/-- Whether the backing file parses to the expected list shape. -/
def isListFile : StoreFile → Bool
  | .parsedList _ => true
  | _ => false

/-- Source `_load_records`: return the parsed list when the file exists,
is non-empty, parses, and is a list; in every other case fall through to
the empty list (the `except: pass` and the trailing `return []`). -/
def load_records : StoreFile → List Record
  | .missing => []
  | .empty => []
  | .unparsable => []
  | .parsedNonList => []
  | .parsedList records => records

/-- The record-matching predicate of `find_record_index`:
`rec.get("email") == email and rec.get("file_hash") == file_hash`. -/
def matchesKey (email file_hash : String) (r : Record) : Bool :=
  decide (lookupVal r "email" = some (Val.str email)) &&
  decide (lookupVal r "file_hash" = some (Val.str file_hash))

/-- Source `find_record_index`: index of the first record matching
`(email, file_hash)`, else `None`. -/
def find_record_index (email file_hash : String) (data : List Record) : Option Nat :=
  find_first (matchesKey email file_hash) data

/-- Value of a maximal digit run, as Python `int(...)`. -/
def digitsToNat (ds : List Char) : Nat :=
  ds.foldl (fun a c => 10 * a + (c.toNat - '0'.toNat)) 0

/-- Match of the regex `__project_(\d+)\.` anchored at the head of the
character list: the literal, then a maximal non-empty digit run, then a
dot; yields the captured number. -/
def matchProjAt (l : List Char) : Option Nat :=
  if l.take 10 = "__project_".toList then
    let rest := l.drop 10
    let ds := rest.takeWhile Char.isDigit
    if ds.isEmpty then none
    else if (rest.drop ds.length).head? = some '.' then some (digitsToNat ds)
    else none
  else none

/-- Python `re.search(r'__project_(\d+)\.', s)`: leftmost match wins. -/
def searchProj : List Char → Option Nat
  | [] => none
  | c :: cs =>
    match matchProjAt (c :: cs) with
    | some n => some n
    | none => searchProj cs

/-- Source `get_next_project_number`: scan the user's records, parse the
project number out of each `filename` field with the regex, track the
maximum, and return one more. A non-string `filename` value would raise
in the source before reaching the regex; records are modelled as
carrying string-or-absent filenames (the theorems assume this shape).
This is the loop body; `get_next_project_number` folds it over the
collection starting from `max_n = 0`. -/
def projNumStep (email : String) (max_n : Nat) (r : Record) : Nat :=
  if lookupVal r "email" = some (Val.str email) then
    let fname :=
      match lookupVal r "filename" with
      | some (Val.str s) => s
      | _ => ""
    match searchProj fname.toList with
    | some n => if n > max_n then n else max_n
    | none => max_n
  else max_n

/-- One more than the accumulated maximum. -/
def get_next_project_number (email : String) (data : List Record) : Nat :=
  data.foldl (projNumStep email) 0 + 1

/-- Characters that `safe_filename` keeps: the regex class
`[a-zA-Z0-9_\-\.]`. -/
def allowedChar (c : Char) : Bool :=
  c.isAlpha || c.isDigit || c = '_' || c = '-' || c = '.'

/-- Source `safe_filename`: replace every disallowed character with an
underscore, then truncate to 64 characters. -/
def safe_filename (s : String) : String :=
  ⟨(s.toList.map fun c => if allowedChar c then c else '_').take 64⟩

/-- Python `email.split("@")[0]`: the part before the first `@`
(the whole string when there is no `@`). -/
def emailLocal (s : String) : String :=
  ⟨s.toList.takeWhile (fun c => c != '@')⟩

/-- Source `build_project_filename` (modelling the path by its file
name): sanitized local part of the email (or `anon` for a falsy email),
the `__project_` tag, the number, and the original extension. -/
def build_project_filename (email : String) (project_num : Nat) (ext : String) : String :=
  (if email = "" then "anon" else safe_filename (emailLocal email)) ++
    "__project_" ++ toString project_num ++ ext

/-- The search step of `save_or_update_record`: only a truthy
`file_hash` in the incoming record enables deduplication. -/
def upsertIndex (email : String) (record : Record) (data : List Record) : Option Nat :=
  match lookupVal record "file_hash" with
  | some v =>
    if truthy v then
      find_first
        (fun r =>
          decide (lookupVal r "email" = some (Val.str email)) &&
          decide (lookupVal r "file_hash" = some v))
        data
    else none
  | none => none

/-- Source `save_or_update_record`: on a miss, stamp `created_at` and
`updated_at` and append; on a hit, `dict.update` the matched record in
place and bump `updated_at`. The rewritten collection is returned. -/
def save_or_update_record (email : String) (record : Record) (now : Val)
    (data : List Record) : List Record :=
  match upsertIndex email record data with
  | none => data ++ [dictSet (dictSet record "created_at" now) "updated_at" now]
  | some i => data.set i (dictSet (dictUpdate (data.getD i []) record) "updated_at" now)

/-- Source upload resolution (lines 222-241, modelling paths by file
name): on a hit reuse the stored filename when it is truthy, else fall
back to a freshly allocated name; on a miss allocate the next project
number. A non-string truthy `filename` would raise in the source; it is
modelled as the fallback and excluded by hypothesis in the theorems. -/
def resolveName (email F ext : String) (data : List Record) : String :=
  let fallback := build_project_filename email (get_next_project_number email data) ext
  match find_record_index email F data with
  | some idx =>
    match lookupVal (data.getD idx []) "filename" with
    | some (Val.str s) => if s = "" then fallback else s
    | _ => fallback
  | none => fallback

/-- The analysis-derived fields of an upload record, as stored values
(metrics, advisory text, and the free-form metadata fields). -/
structure AnalysisVals where
  duration : Val
  lufs : Val
  peak : Val
  crest_factor : Val
  centroid : Val
  dominant_freq : Val
  main_tip : Val
  tips : Val
  genre : Val
  project_stage : Val
deriving DecidableEq

/-- The record literal built at source lines 293-307. -/
def uploadRecord (email F filename : String) (v : AnalysisVals) : Record :=
  [("email", .str email), ("file_hash", .str F), ("filename", .str filename),
   ("duration", v.duration), ("lufs", v.lufs), ("peak", v.peak),
   ("crest_factor", v.crest_factor), ("centroid", v.centroid),
   ("dominant_freq", v.dominant_freq), ("main_tip", v.main_tip),
   ("tips", v.tips), ("genre", v.genre), ("project_stage", v.project_stage)]

/-- The single user-visible error banner of the top-level handler
(source line 359). -/
def errorMessage (e : String) : String :=
  "âš ï¸ Error: Unsupported or corrupted file (" ++ e ++ ")"

/-- One upload attempt (the body of the `try` block): resolve the slot,
then either fail before any record write (analysis raised; the handler
shows the single banner and the collection is untouched) or upsert the
freshly built record. `analysis` stands for the combined outcome of
decoding plus feature extraction. -/
def uploadAttempt {A : Type} (email F ext now : String)
    (analysis : Except String A) (mkRecord : String → A → Record)
    (data : List Record) : List Record × Option String :=
  let name := resolveName email F ext data
  match analysis with
  | .error e => (data, some (errorMessage e))
  | .ok a => (save_or_update_record email (mkRecord name a) (.str now) data, none)

/-- A successful upload run: resolve, analyze (already done, `v`), build
the record, upsert. -/
def uploadStep (email F ext now : String) (v : AnalysisVals)
    (data : List Record) : List Record :=
  (uploadAttempt email F ext now (Except.ok v)
    (fun name a => uploadRecord email F name a) data).1

/-- Left-pad a digit string with zeros to the requested width. -/
def padZeros (n : Nat) (s : String) : String :=
  ⟨List.replicate (n - s.length) '0'⟩ ++ s

/-- Fixed-point decimal rendering of a rational, modelling the Python
`:.2f` / `:.1f` format specifiers of the tip strings. -/
def fmtFixed (prec : Nat) (q : ℚ) : String :=
  let scaled : Int := round (q * (10 : ℚ) ^ prec)
  let sign := if scaled < 0 then "-" else ""
  let a := scaled.natAbs
  if prec = 0 then sign ++ toString a
  else sign ++ toString (a / 10 ^ prec) ++ "." ++ padZeros prec (toString (a % 10 ^ prec))

/-- Headline of the loudness-high branch. -/
def mainLoudHigh : String :=
  "Loudness is too high â€“ possible distortion/volume reduction."

/-- Headline of the loudness-low branch. -/
def mainLoudLow : String :=
  "Loudness is low â€“ mix won\x27t stand out compared to others."

/-- Headline of the peak-high branch. -/
def mainPeakHigh : String :=
  "High peak â€“ risk of clipping/distortion."

/-- Headline of the crest-low branch. -/
def mainCrestLow : String :=
  "Mix is over-compressed â€“ loss of dynamics."

/-- Generic headline used when no headline-bearing branch fired. -/
def mainBalanced : String :=
  "Your mix is balanced and excellent! Keep it up."

/-- Tip text of the loudness-high branch. -/
def tipLoudHigh (lufs : ℚ) : String :=
  "High loudness (" ++ fmtFixed 2 lufs ++
    " LUFS). It\x27s recommended to reduce master volume/limiter to about -13~-14 LUFS to avoid distortion and automatic volume reduction on streaming platforms."

/-- Tip text of the loudness-low branch. -/
def tipLoudLow (lufs : ℚ) : String :=
  "Low loudness (" ++ fmtFixed 2 lufs ++
    " LUFS). Consider raising volume or remastering to make the mix stand out."

/-- Tip text of the loudness in-range branch. -/
def tipLoudOk (lufs : ℚ) : String :=
  "Average loudness is normal (" ++ fmtFixed 2 lufs ++ " LUFS) â€“ great!"

/-- Tip text of the peak-high branch. -/
def tipPeakHigh (peak : ℚ) : String :=
  "High peak value (" ++ fmtFixed 2 peak ++
    "). Recommended to lower to -0.5dBFS to avoid clipping or distortion."

/-- Tip text of the peak-low branch. -/
def tipPeakLow (peak : ℚ) : String :=
  "Low peak value (" ++ fmtFixed 2 peak ++
    "). Consider increasing gain to utilize dynamic range."

/-- Tip text of the peak in-range branch. -/
def tipPeakOk (peak : ℚ) : String :=
  "Peak level is within a healthy range (" ++ fmtFixed 2 peak ++ ")."

/-- Tip text of the crest-low branch. -/
def tipCrestLow (crest : ℚ) : String :=
  "Low Crest Factor (" ++ fmtFixed 2 crest ++
    "). Mix is too compressed â€“ try reducing compression/limiter."

/-- Tip text of the crest-high branch. -/
def tipCrestHigh (crest : ℚ) : String :=
  "High Crest Factor (" ++ fmtFixed 2 crest ++
    "). Mix is very dynamic â€“ might need compression."

/-- Tip text of the crest in-range branch. -/
def tipCrestOk (crest : ℚ) : String :=
  "Crest Factor is within normal range (" ++ fmtFixed 2 crest ++ ")."

/-- Tip text of the dominant-frequency-low branch. -/
def tipDomLow (dominant_freq : ℚ) : String :=
  "Bass dominant frequency (" ++ fmtFixed 1 dominant_freq ++
    "Hz). Check for muddy build-up in 20â€“80Hz range."

/-- Tip text of the dominant-frequency-high branch. -/
def tipDomHigh (dominant_freq : ℚ) : String :=
  "High frequency dominant (" ++ fmtFixed 1 dominant_freq ++
    "Hz). Possibly too much high-end boost."

/-- Tip text of the dominant-frequency in-range branch. -/
def tipDomOk (dominant_freq : ℚ) : String :=
  "Dominant frequency is within a healthy range (" ++ fmtFixed 1 dominant_freq ++ "Hz)."

/-- Tip text of the centroid-low branch. -/
def tipCentLow (centroid : ℚ) : String :=
  "Low spectral centroid (" ++ fmtFixed 1 centroid ++
    "Hz). Consider adding brightness (EQ around 2kHz-7kHz)."

/-- Tip text of the centroid-high branch. -/
def tipCentHigh (centroid : ℚ) : String :=
  "High spectral centroid (" ++ fmtFixed 1 centroid ++
    "Hz). High-end is dominant â€“ consider EQ adjustments."

/-- Tip text of the centroid in-range branch. -/
def tipCentOk (centroid : ℚ) : String :=
  "Spectral centroid is balanced (" ++ fmtFixed 1 centroid ++ "Hz)."

/-- Explanation of the loudness-high branch. -/
def expLoudHigh : String :=
  "LUFS represents perceived loudness. Too high values will cause platforms like Spotify to reduce volume automatically, possibly causing distortion."

/-- Explanation of the loudness-low branch. -/
def expLoudLow : String :=
  "Low LUFS means the track sounds weak compared to others, especially in playlists."

/-- Explanation of the loudness in-range branch. -/
def expLoudOk : String :=
  "Loudness is within normal range, but make sure other parameters are good too."

/-- Explanation of the peak-high branch. -/
def expPeakHigh : String :=
  "High peak values mean audio signal touches upper limit, risking digital distortion."

/-- Explanation of the peak-low branch. -/
def expPeakLow : String :=
  "Low peak means mix isn\x27t utilizing full dynamic range â€“ master gain can be raised."

/-- Explanation of the crest-low branch. -/
def expCrestLow : String :=
  "Low Crest Factor indicates small difference between peaks and noise floor, meaning heavy compression."

/-- Explanation of the crest-high branch. -/
def expCrestHigh : String :=
  "High Crest Factor is typical for classical or soundtrack music; if not, mix might be too soft."

/-- Explanation of the dominant-frequency-low branch. -/
def expDomLow : String :=
  "Very low dominant frequency suggests bass is overpowering. Use headphones and EQ to check."

/-- Explanation of the dominant-frequency-high branch. -/
def expDomHigh : String :=
  "High dominant frequency can cause harshness and listener fatigue. Balance highs and lows."

/-- Explanation of the centroid-low branch. -/
def expCentLow : String :=
  "Low centroid results in a \x27dark\x27 mix; sometimes a bit of brightness is desired for modern sound."

/-- Explanation of the centroid-high branch. -/
def expCentHigh : String :=
  "Too high centroid makes mix sound \x27sharp\x27 or \x27thin\x27, which can be unpleasant for long listening."

/-- Source `professional_tips`: sequential accumulation over the five
metric rules in the fixed order loudness, peak, crest factor, dominant
frequency, centroid. State is `(tips, main_tip, explanation)`;
`if not main_tip` is the Python truthiness test on the headline string.
Returns `(main_tip, tips, explanation)`. -/
def professional_tips (lufs peak crest centroid dominant_freq : ℚ) :
    String × List String × List String :=
  let st : List String × String × List String :=
    if lufs > -11.5 then ([tipLoudHigh lufs], mainLoudHigh, [expLoudHigh])
    else if lufs < -15.5 then ([tipLoudLow lufs], mainLoudLow, [expLoudLow])
    else ([tipLoudOk lufs], "", [expLoudOk])
  let st : List String × String × List String :=
    if peak > 0.98 then
      (st.1 ++ [tipPeakHigh peak],
       if st.2.1 = "" then mainPeakHigh else st.2.1,
       st.2.2 ++ [expPeakHigh])
    else if peak < 0.7 then
      (st.1 ++ [tipPeakLow peak], st.2.1, st.2.2 ++ [expPeakLow])
    else (st.1 ++ [tipPeakOk peak], st.2.1, st.2.2)
  let st : List String × String × List String :=
    if crest < 3 then
      (st.1 ++ [tipCrestLow crest],
       if st.2.1 = "" then mainCrestLow else st.2.1,
       st.2.2 ++ [expCrestLow])
    else if crest > 6 then
      (st.1 ++ [tipCrestHigh crest], st.2.1, st.2.2 ++ [expCrestHigh])
    else (st.1 ++ [tipCrestOk crest], st.2.1, st.2.2)
  let st : List String × String × List String :=
    if dominant_freq < 80 then
      (st.1 ++ [tipDomLow dominant_freq], st.2.1, st.2.2 ++ [expDomLow])
    else if dominant_freq > 3000 then
      (st.1 ++ [tipDomHigh dominant_freq], st.2.1, st.2.2 ++ [expDomHigh])
    else (st.1 ++ [tipDomOk dominant_freq], st.2.1, st.2.2)
  let st : List String × String × List String :=
    if centroid < 1400 then
      (st.1 ++ [tipCentLow centroid], st.2.1, st.2.2 ++ [expCentLow])
    else if centroid > 4800 then
      (st.1 ++ [tipCentHigh centroid], st.2.1, st.2.2 ++ [expCentHigh])
    else (st.1 ++ [tipCentOk centroid], st.2.1, st.2.2)
  (if st.2.1 = "" then mainBalanced else st.2.1, st.1, st.2.2)

/-- Tip selected by the loudness rule alone. -/
def loudnessTipOf (lufs : ℚ) : String :=
  if lufs > -11.5 then tipLoudHigh lufs
  else if lufs < -15.5 then tipLoudLow lufs
  else tipLoudOk lufs

/-- Tip selected by the peak rule alone. -/
def peakTipOf (peak : ℚ) : String :=
  if peak > 0.98 then tipPeakHigh peak
  else if peak < 0.7 then tipPeakLow peak
  else tipPeakOk peak

/-- Tip selected by the crest-factor rule alone. -/
def crestTipOf (crest : ℚ) : String :=
  if crest < 3 then tipCrestLow crest
  else if crest > 6 then tipCrestHigh crest
  else tipCrestOk crest

/-- Tip selected by the dominant-frequency rule alone. -/
def domTipOf (dominant_freq : ℚ) : String :=
  if dominant_freq < 80 then tipDomLow dominant_freq
  else if dominant_freq > 3000 then tipDomHigh dominant_freq
  else tipDomOk dominant_freq

/-- Tip selected by the centroid rule alone. -/
def centTipOf (centroid : ℚ) : String :=
  if centroid < 1400 then tipCentLow centroid
  else if centroid > 4800 then tipCentHigh centroid
  else tipCentOk centroid

/-- Headline policy as the code implements it: first match wins over the
four headline-bearing branches only (loudness low/high, peak high, crest
low), generic balanced message otherwise. -/
def headline_rule (lufs peak crest : ℚ) : String :=
  if lufs > -11.5 then mainLoudHigh
  else if lufs < -15.5 then mainLoudLow
  else if peak > 0.98 then mainPeakHigh
  else if crest < 3 then mainCrestLow
  else mainBalanced

/-- Project number parsed back from a record's stored filename
(the spec's notion of the `projectNumber` a record carries). -/
def parsedProjectNumber (r : Record) : Option Nat :=
  match lookupVal r "filename" with
  | some (Val.str s) => searchProj s.toList
  | _ => none

/-- The project numbers recorded in the stored filenames of a user's
records. -/
def userProjectNumbers (email : String) (data : List Record) : List Nat :=
  (data.filter fun r => decide (lookupVal r "email" = some (Val.str email))).filterMap
    parsedProjectNumber

/-- A fixed bundle of analysis-derived fields for concrete store
scenarios. -/
def sampleVals : AnalysisVals :=
  ⟨.str "3.0", .str "-13.0", .str "0.8", .str "4.0", .str "2000.0",
   .str "500.0", .str "tip", .str "tips", .str "Pop", .str "mix"⟩

/-! ### Audio feature extraction (real-valued idealization of the
floating-point numpy pipeline) -/

/-- The scalar metrics of one analysis. -/
structure MetricsR where
  duration : ℝ
  rms : ℝ
  peak : ℝ
  crest_factor : ℝ
  lufs : ℝ
  centroid : ℝ
  dominant_freq : ℝ

/-- Numpy `np.mean`: sum over length. -/
noncomputable def npMean (l : List ℝ) : ℝ := l.sum / l.length

/-- Numpy reduction `np.max` on a non-empty array (numpy raises
`ValueError` on an empty one; the unreachable default is 0). -/
noncomputable def npMax : List ℝ → ℝ
  | [] => 0
  | x :: xs => xs.foldl max x

/-- Accumulator loop of `np.argmax`: first index of the maximum wins,
later equal values do not displace it. -/
noncomputable def argmaxAux (bi : Nat) (bv : ℝ) (i : Nat) : List ℝ → Nat
  | [] => bi
  | v :: rest =>
    if bv < v then argmaxAux i v (i + 1) rest else argmaxAux bi bv (i + 1) rest

/-- Numpy `np.argmax` (0 on the empty array, unreachable here). -/
noncomputable def npArgmax : List ℝ → Nat
  | [] => 0
  | v :: rest => argmaxAux 0 v 1 rest

/-- Bin `k` of the discrete Fourier transform of a real signal:
the sum over `n` of `x_n * exp(-2*pi*i*k*n/N)`. -/
noncomputable def dftBin (x : List ℝ) (k : Nat) : ℂ :=
  ((List.range x.length).map fun n =>
    (x.getD n 0 : ℂ) *
      Complex.exp (-2 * Real.pi * Complex.I * (k : ℂ) * (n : ℂ) / (x.length : ℂ))).sum

/-- Numpy `np.abs(np.fft.rfft(x))`: magnitudes of the one-sided
spectrum, bins `0 .. N/2` (that is `N/2 + 1` bins). -/
noncomputable def rfftSpectrum (x : List ℝ) : List ℝ :=
  (List.range (x.length / 2 + 1)).map fun k => Complex.abs (dftBin x k)

/-- Numpy `np.fft.rfftfreq n d`: `k / (d*n)` for `k` in `0 .. n/2`. -/
noncomputable def rfftfreq (n : Nat) (d : ℝ) : List ℝ :=
  (List.range (n / 2 + 1)).map fun (k : Nat) => (k : ℝ) / (d * (n : ℝ))

/-- The `1e-12` epsilon guard of the source. -/
noncomputable def epsGuard : ℝ := 1e-12

/-- Source analysis block (lines 247-255): duration, rms, peak, crest
factor, loudness proxy, spectrum, centroid, dominant frequency, written
over the reals as an idealization of the float pipeline. -/
noncomputable def extract_metrics (samples : List ℝ) (sr : ℝ) : MetricsR :=
  let duration := samples.length / sr
  let rms := Real.sqrt (npMean (samples.map fun s => s ^ 2))
  let peak := npMax (samples.map fun s => |s|)
  let crest_factor := peak / (rms + epsGuard)
  let lufs := 20 * Real.logb 10 (rms + epsGuard)
  let spectrum := rfftSpectrum samples
  let freqs := rfftfreq samples.length (1 / sr)
  let centroid :=
    (List.zipWith (fun a b => a * b) freqs spectrum).sum / (spectrum.sum + epsGuard)
  let dominant_freq := freqs.getD (npArgmax spectrum) 0
  ⟨duration, rms, peak, crest_factor, lufs, centroid, dominant_freq⟩

/-- The numpy error text raised by `np.max` over an empty array. -/
def emptyReduceMsg : String :=
  "zero-size array to reduction operation maximum which has no identity"

/-- The extraction step as the pipeline sees it: an empty sample buffer
raises (numpy refuses the empty `np.max` reduction, there is no guard in
the source); otherwise the metrics are computed. -/
noncomputable def analyze (samples : List ℝ) (sr : ℝ) : Except String MetricsR :=
  if samples.isEmpty then Except.error emptyReduceMsg
  else Except.ok (extract_metrics samples sr)

/-- Spec formula: root-mean-square amplitude, the square root of the
mean of the squared samples. -/
noncomputable def rms_spec (samples : List ℝ) : ℝ :=
  Real.sqrt ((samples.map fun s => s ^ 2).sum / samples.length)

/-- Spec formula: maximum absolute amplitude. -/
noncomputable def peak_spec (samples : List ℝ) : ℝ :=
  (samples.map fun s => |s|).foldr max 0

/-- Spec: logarithm base 10. -/
noncomputable def log10 (x : ℝ) : ℝ := Real.log x / Real.log 10

/-- Spec formula: bin frequencies `k * sr / N` of the one-sided
spectrum. -/
noncomputable def freqs_spec (n : Nat) (sr : ℝ) : List ℝ :=
  (List.range (n / 2 + 1)).map fun (k : Nat) => (k : ℝ) * sr / (n : ℝ)

/-- Spec formula: energy-weighted mean frequency,
`sum(freq * magnitude) / (sum(magnitude) + eps)` over the one-sided
rfft magnitude spectrum. -/
noncomputable def centroid_spec (samples : List ℝ) (sr : ℝ) : ℝ :=
  (List.zipWith (fun a b => a * b) (freqs_spec samples.length sr)
    (rfftSpectrum samples)).sum / ((rfftSpectrum samples).sum + epsGuard)

/-- Spec formula: the frequency of the maximum-magnitude bin. -/
noncomputable def dominant_spec (samples : List ℝ) (sr : ℝ) : ℝ :=
  (npArgmax (rfftSpectrum samples) : ℝ) * sr / (samples.length : ℝ)

/-! ### Dictionary and scan lemmas -/

theorem lookupVal_dictSet (d : Record) (k : String) (v : Val) (k' : String) :
    lookupVal (dictSet d k v) k' = if k = k' then some v else lookupVal d k' := by
  induction d with
  | nil =>
    by_cases h : k = k' <;> simp [dictSet, lookupVal, h]
  | cons hd tl ih =>
    obtain ⟨k1, v1⟩ := hd
    simp only [dictSet]
    by_cases h1 : k1 = k
    · subst h1
      by_cases h2 : k1 = k' <;> simp [lookupVal, h2]
    · simp only [h1, if_false]
      by_cases h2 : k1 = k'
      · have hkk : ¬(k = k') := fun hc => h1 (h2.trans hc.symm)
        simp [lookupVal, h2, hkk]
      · simp [lookupVal, h2, ih]

theorem lookupVal_append (d e : Record) (k : String) :
    lookupVal (d ++ e) k =
      match lookupVal d k with
      | some v => some v
      | none => lookupVal e k := by
  induction d with
  | nil => simp [lookupVal]
  | cons hd tl ih =>
    obtain ⟨k1, v1⟩ := hd
    by_cases h : k1 = k <;> simp [lookupVal, h, ih]

theorem lookupVal_update_left (d o : Record) (k : String) :
    lookupVal
      (d.map fun kv =>
        (kv.1,
          match lookupVal o kv.1 with
          | some v => v
          | none => kv.2)) k =
      (lookupVal d k).map fun v1 =>
        match lookupVal o k with
        | some v => v
        | none => v1 := by
  induction d with
  | nil => simp [lookupVal]
  | cons hd tl ih =>
    obtain ⟨k1, v1⟩ := hd
    by_cases h : k1 = k
    · subst h
      simp [lookupVal, ih]
    · simp [lookupVal, h, ih]

theorem lookupVal_update_right (d o : Record) (k : String) :
    lookupVal (o.filter fun kv => (lookupVal d kv.1).isNone) k =
      if (lookupVal d k).isNone then lookupVal o k else none := by
  induction o with
  | nil => simp [lookupVal]
  | cons hd tl ih =>
    obtain ⟨k1, v1⟩ := hd
    by_cases h : k1 = k
    · subst h
      cases hd1 : (lookupVal d k1).isNone <;>
        simp [List.filter, lookupVal, hd1, ih]
    · cases hd1 : (lookupVal d k1).isNone <;>
        simp [List.filter, lookupVal, h, hd1, ih]

theorem lookupVal_dictUpdate (d o : Record) (k : String) :
    lookupVal (dictUpdate d o) k =
      match lookupVal o k with
      | some v => some v
      | none => lookupVal d k := by
  unfold dictUpdate
  rw [lookupVal_append, lookupVal_update_left, lookupVal_update_right]
  cases hd : lookupVal d k <;> cases ho : lookupVal o k <;> simp [hd, ho]

theorem find_first_eq_none {p : Record → Bool} {l : List Record}
    (h : ∀ r ∈ l, p r = false) : find_first p l = none := by
  induction l with
  | nil => rfl
  | cons hd tl ih =>
    simp only [find_first, h hd (List.mem_cons_self hd tl)]
    simp [ih fun r hr => h r (List.mem_cons_of_mem hd hr)]

theorem find_first_append_singleton {p : Record → Bool} {l : List Record}
    (h : find_first p l = none) (x : Record) :
    find_first p (l ++ [x]) = if p x then some l.length else none := by
  induction l with
  | nil =>
    simp only [List.nil_append, find_first, List.length_nil]
    cases hx : p x <;> simp [find_first, hx]
  | cons hd tl ih =>
    simp only [find_first] at h
    cases hp : p hd with
    | true => rw [hp] at h; simp at h
    | false =>
      rw [hp] at h
      simp only [Bool.false_eq_true, if_false] at h
      have htl : find_first p tl = none := by
        cases hfp : find_first p tl <;> rw [hfp] at h <;> simp_all
      rw [List.cons_append]
      simp only [find_first, hp, Bool.false_eq_true, if_false, ih htl,
        List.length_cons]
      cases hx : p x <;> simp [hx]

theorem find_first_lt_length {p : Record → Bool} {l : List Record} {i : Nat}
    (h : find_first p l = some i) : i < l.length := by
  induction l generalizing i with
  | nil => simp [find_first] at h
  | cons hd tl ih =>
    simp only [find_first] at h
    cases hp : p hd with
    | true =>
      rw [hp] at h
      simp only [if_true] at h
      cases h
      simp
    | false =>
      rw [hp] at h
      simp only [Bool.false_eq_true, if_false] at h
      cases hfp : find_first p tl with
      | none => rw [hfp] at h; simp at h
      | some j =>
        rw [hfp] at h
        simp only [Option.map_some'] at h
        cases h
        have := ih hfp
        simp only [List.length_cons]
        omega

theorem find_first_set {p : Record → Bool} {l : List Record} {i : Nat}
    (h : find_first p l = some i) {x : Record} (hx : p x = true) :
    find_first p (l.set i x) = some i := by
  induction l generalizing i with
  | nil => simp [find_first] at h
  | cons hd tl ih =>
    simp only [find_first] at h
    cases hp : p hd with
    | true =>
      rw [hp] at h
      simp only [if_true] at h
      cases h
      simp [List.set, find_first, hx]
    | false =>
      rw [hp] at h
      simp only [Bool.false_eq_true, if_false] at h
      cases hfp : find_first p tl with
      | none => rw [hfp] at h; simp at h
      | some j =>
        rw [hfp] at h
        simp only [Option.map_some'] at h
        cases h
        simp [List.set, find_first, hp, ih hfp]

theorem getD_append_length (l : List Record) (x d : Record) :
    (l ++ [x]).getD l.length d = x := by
  induction l with
  | nil => rfl
  | cons hd tl ih => simpa using ih

theorem getD_set_self {l : List Record} {i : Nat} (h : i < l.length) (x d : Record) :
    (l.set i x).getD i d = x := by
  induction l generalizing i with
  | nil => simp at h
  | cons hd tl ih =>
    cases i with
    | zero => rfl
    | succ j =>
      simp only [List.length_cons] at h
      simpa using ih (Nat.lt_of_succ_lt_succ h)

theorem getD_set_ne {l : List Record} {i j : Nat} (h : i ≠ j) (x d : Record) :
    (l.set i x).getD j d = l.getD j d := by
  induction l generalizing i j with
  | nil => rfl
  | cons hd tl ih =>
    cases i with
    | zero =>
      cases j with
      | zero => exact absurd rfl h
      | succ j' => rfl
    | succ i' =>
      cases j with
      | zero => rfl
      | succ j' =>
        have h' : i' ≠ j' := fun hc => h (by omega)
        simpa using ih h'

theorem set_append_length (l : List Record) (x y : Record) :
    (l ++ [x]).set l.length y = l ++ [y] := by
  induction l with
  | nil => rfl
  | cons hd tl ih => simpa using ih

/-! ### Upsert structure lemmas -/

theorem upsertIndex_eq_find {F : String} (email : String) (record : Record)
    (data : List Record)
    (hfh : lookupVal record "file_hash" = some (Val.str F)) (hF : F ≠ "") :
    upsertIndex email record data = find_record_index email F data := by
  unfold upsertIndex find_record_index matchesKey
  rw [hfh]
  simp [truthy, hF]

theorem upsertIndex_nil (email : String) (record : Record) :
    upsertIndex email record [] = none := by
  unfold upsertIndex
  cases lookupVal record "file_hash" with
  | none => rfl
  | some v => simp [find_first]

/-- Field lookups on the timestamp-stamped version of a record. -/
theorem lookupVal_stamped (r : Record) (now : Val) (k : String)
    (hc : k ≠ "created_at") (hu : k ≠ "updated_at") :
    lookupVal (dictSet (dictSet r "created_at" now) "updated_at" now) k =
      lookupVal r k := by
  rw [lookupVal_dictSet, lookupVal_dictSet,
    if_neg (fun h => hu h.symm), if_neg (fun h => hc h.symm)]

theorem lookupVal_dictUpdate_some {o : Record} {k : String} {v : Val} (d : Record)
    (h : lookupVal o k = some v) : lookupVal (dictUpdate d o) k = some v := by
  rw [lookupVal_dictUpdate, h]

theorem lookupVal_dictUpdate_none {o : Record} {k : String} (d : Record)
    (h : lookupVal o k = none) : lookupVal (dictUpdate d o) k = lookupVal d k := by
  rw [lookupVal_dictUpdate, h]

theorem matchesKey_true {U F : String} {r : Record}
    (he : lookupVal r "email" = some (Val.str U))
    (hf : lookupVal r "file_hash" = some (Val.str F)) :
    matchesKey U F r = true := by
  simp [matchesKey, he, hf]

/-! ### Claim theorems -/

/-- C1: starting from a store with no record matching `(email = U,
file_hash = F)`, upserting `r1` then `r2` (both carrying email `U` and
file hash `F`, neither touching the reserved timestamp keys) leaves
exactly one record matching `(U, F)`, appended at the end; that record
holds `r1`'s value for every key of `r1` absent from `r2`, `r2`'s value
for every key of `r2`, its `created_at` is the first call's timestamp
and its `updated_at` the second call's. -/
theorem upsert_dedup_merge
    (U F n1 n2 : String) (r1 r2 : Record) (data : List Record)
    (hF : F ≠ "")
    (h1e : lookupVal r1 "email" = some (Val.str U))
    (h1f : lookupVal r1 "file_hash" = some (Val.str F))
    (h2e : lookupVal r2 "email" = some (Val.str U))
    (h2f : lookupVal r2 "file_hash" = some (Val.str F))
    (h1c : lookupVal r1 "created_at" = none)
    (h1u : lookupVal r1 "updated_at" = none)
    (h2c : lookupVal r2 "created_at" = none)
    (h2u : lookupVal r2 "updated_at" = none)
    (hdata : ∀ r ∈ data, matchesKey U F r = false) :
    (save_or_update_record U r2 (Val.str n2)
        (save_or_update_record U r1 (Val.str n1) data)).countP (matchesKey U F) = 1 ∧
    ∃ R, save_or_update_record U r2 (Val.str n2)
        (save_or_update_record U r1 (Val.str n1) data) = data ++ [R] ∧
      (∀ k v, lookupVal r1 k = some v → lookupVal r2 k = none →
        lookupVal R k = some v) ∧
      (∀ k v, lookupVal r2 k = some v → lookupVal R k = some v) ∧
      lookupVal R "created_at" = some (Val.str n1) ∧
      lookupVal R "updated_at" = some (Val.str n2) := by
  have hfind0 : find_first (matchesKey U F) data = none := find_first_eq_none hdata
  have hidx1 : upsertIndex U r1 data = none := by
    rw [upsertIndex_eq_find U r1 data h1f hF]
    exact hfind0
  have hd1 : save_or_update_record U r1 (Val.str n1) data =
      data ++ [dictSet (dictSet r1 "created_at" (Val.str n1)) "updated_at" (Val.str n1)] := by
    simp [save_or_update_record, hidx1]
  have l1e : lookupVal (dictSet (dictSet r1 "created_at" (Val.str n1))
      "updated_at" (Val.str n1)) "email" = some (Val.str U) := by
    rw [lookupVal_stamped r1 _ _ (by decide) (by decide)]
    exact h1e
  have l1f : lookupVal (dictSet (dictSet r1 "created_at" (Val.str n1))
      "updated_at" (Val.str n1)) "file_hash" = some (Val.str F) := by
    rw [lookupVal_stamped r1 _ _ (by decide) (by decide)]
    exact h1f
  have hm1 := matchesKey_true l1e l1f
  have hfind1 : find_first (matchesKey U F)
      (data ++ [dictSet (dictSet r1 "created_at" (Val.str n1)) "updated_at" (Val.str n1)]) =
      some data.length := by
    rw [find_first_append_singleton hfind0, hm1]
    simp
  have hidx2 : upsertIndex U r2
      (data ++ [dictSet (dictSet r1 "created_at" (Val.str n1)) "updated_at" (Val.str n1)]) =
      some data.length := by
    rw [upsertIndex_eq_find U r2 _ h2f hF]
    exact hfind1
  have hd2 : save_or_update_record U r2 (Val.str n2)
      (data ++ [dictSet (dictSet r1 "created_at" (Val.str n1)) "updated_at" (Val.str n1)]) =
      data ++ [dictSet (dictUpdate
        (dictSet (dictSet r1 "created_at" (Val.str n1)) "updated_at" (Val.str n1)) r2)
        "updated_at" (Val.str n2)] := by
    simp only [save_or_update_record, hidx2, getD_append_length, set_append_length]
  have lRe : lookupVal (dictSet (dictUpdate
      (dictSet (dictSet r1 "created_at" (Val.str n1)) "updated_at" (Val.str n1)) r2)
      "updated_at" (Val.str n2)) "email" = some (Val.str U) := by
    rw [lookupVal_dictSet, if_neg (by decide), lookupVal_dictUpdate_some _ h2e]
  have lRf : lookupVal (dictSet (dictUpdate
      (dictSet (dictSet r1 "created_at" (Val.str n1)) "updated_at" (Val.str n1)) r2)
      "updated_at" (Val.str n2)) "file_hash" = some (Val.str F) := by
    rw [lookupVal_dictSet, if_neg (by decide), lookupVal_dictUpdate_some _ h2f]
  have hmR := matchesKey_true lRe lRf
  rw [hd1, hd2]
  constructor
  · rw [List.countP_append]
    have hz : data.countP (matchesKey U F) = 0 := by
      rw [List.countP_eq_zero]
      intro r hr
      simp [hdata r hr]
    rw [hz]
    simp [List.countP_cons, hmR]
  · refine ⟨_, rfl, ?_, ?_, ?_, ?_⟩
    · intro k v h1k h2k
      have hkc : k ≠ "created_at" := by
        intro hc
        rw [hc, h1c] at h1k
        exact Option.noConfusion h1k
      have hku : k ≠ "updated_at" := by
        intro hc
        rw [hc, h1u] at h1k
        exact Option.noConfusion h1k
      rw [lookupVal_dictSet, if_neg (fun h => hku h.symm),
        lookupVal_dictUpdate_none _ h2k, lookupVal_stamped r1 _ _ hkc hku]
      exact h1k
    · intro k v h2k
      have hku : k ≠ "updated_at" := by
        intro hc
        rw [hc, h2u] at h2k
        exact Option.noConfusion h2k
      rw [lookupVal_dictSet, if_neg (fun h => hku h.symm),
        lookupVal_dictUpdate_some _ h2k]
    · rw [lookupVal_dictSet, if_neg (by decide),
        lookupVal_dictUpdate_none _ h2c, lookupVal_dictSet, if_neg (by decide),
        lookupVal_dictSet, if_pos rfl]
    · rw [lookupVal_dictSet, if_pos rfl]

/-- Witness for C1: upserting `(F, a=1)` then `(F, b=2)` into an empty
store yields a single merged record. -/
theorem upsert_dedup_merge_witness :
    (("abcd" : String) ≠ "" ∧
      (∀ r ∈ ([] : List Record), matchesKey "u@x.y" "abcd" r = false)) ∧
    ((save_or_update_record "u@x.y"
        [("email", Val.str "u@x.y"), ("file_hash", Val.str "abcd"), ("b", Val.str "2")]
        (Val.str "t2")
        (save_or_update_record "u@x.y"
          [("email", Val.str "u@x.y"), ("file_hash", Val.str "abcd"), ("a", Val.str "1")]
          (Val.str "t1") [])).countP (matchesKey "u@x.y" "abcd") = 1 ∧
      ∃ R, save_or_update_record "u@x.y"
        [("email", Val.str "u@x.y"), ("file_hash", Val.str "abcd"), ("b", Val.str "2")]
        (Val.str "t2")
        (save_or_update_record "u@x.y"
          [("email", Val.str "u@x.y"), ("file_hash", Val.str "abcd"), ("a", Val.str "1")]
          (Val.str "t1") []) = [] ++ [R] ∧
        (∀ k v, lookupVal [("email", Val.str "u@x.y"), ("file_hash", Val.str "abcd"),
            ("a", Val.str "1")] k = some v →
          lookupVal [("email", Val.str "u@x.y"), ("file_hash", Val.str "abcd"),
            ("b", Val.str "2")] k = none →
          lookupVal R k = some v) ∧
        (∀ k v, lookupVal [("email", Val.str "u@x.y"), ("file_hash", Val.str "abcd"),
            ("b", Val.str "2")] k = some v → lookupVal R k = some v) ∧
        lookupVal R "created_at" = some (Val.str "t1") ∧
        lookupVal R "updated_at" = some (Val.str "t2")) :=
  ⟨⟨by decide, by decide⟩,
   upsert_dedup_merge "u@x.y" "abcd" "t1" "t2"
     [("email", Val.str "u@x.y"), ("file_hash", Val.str "abcd"), ("a", Val.str "1")]
     [("email", Val.str "u@x.y"), ("file_hash", Val.str "abcd"), ("b", Val.str "2")]
     [] (by decide) (by decide) (by decide) (by decide) (by decide) (by decide)
     (by decide) (by decide) (by decide) (by decide)⟩

/-- C9: an upsert leaves every record other than the matched (or
appended) one unchanged at its position: on a miss the collection is the
old one with the stamped record appended at the end; on a hit the length
is unchanged and every index other than the matched one holds its old
record, field for field. -/
theorem upsert_frame_condition (email : String) (record : Record) (now : Val)
    (data : List Record) :
    (upsertIndex email record data = none →
      save_or_update_record email record now data =
        data ++ [dictSet (dictSet record "created_at" now) "updated_at" now]) ∧
    (∀ i, upsertIndex email record data = some i →
      (save_or_update_record email record now data).length = data.length ∧
      ∀ j, j ≠ i →
        (save_or_update_record email record now data).getD j [] = data.getD j []) := by
  constructor
  · intro h
    simp [save_or_update_record, h]
  · intro i h
    refine ⟨?_, ?_⟩
    · simp [save_or_update_record, h]
    · intro j hj
      simp only [save_or_update_record, h]
      exact getD_set_ne (fun hc => hj hc.symm) _ _

/-- Witness for C9: the email-touch record appended to an empty store. -/
theorem upsert_frame_condition_witness :
    upsertIndex "u@x.y" [("email", Val.str "u@x.y")] [] = none ∧
    save_or_update_record "u@x.y" [("email", Val.str "u@x.y")] (Val.str "t0") [] =
      [] ++ [dictSet (dictSet [("email", Val.str "u@x.y")] "created_at" (Val.str "t0"))
        "updated_at" (Val.str "t0")] :=
  ⟨by decide,
   (upsert_frame_condition "u@x.y" [("email", Val.str "u@x.y")] (Val.str "t0") []).1
     (by decide)⟩

/-- C8: whatever bad state the backing file is in (missing, zero-size,
unparsable as JSON, or parsed to a non-list value), loading yields the
empty list instead of failing, and the next upsert then proceeds from
empty and rewrites a well-formed one-record collection. -/
theorem store_corrupt_treated_as_empty (f : StoreFile) (h : isListFile f = false)
    (email : String) (record : Record) (now : Val) :
    load_records f = [] ∧
    ∃ R, save_or_update_record email record now (load_records f) = [R] := by
  have hl : load_records f = [] := by
    cases f <;> simp_all [isListFile, load_records]
  refine ⟨hl, dictSet (dictSet record "created_at" now) "updated_at" now, ?_⟩
  rw [hl]
  simp [save_or_update_record, upsertIndex_nil]

/-- Witness for C8 at an unparsable backing file. -/
theorem store_corrupt_treated_as_empty_witness :
    isListFile StoreFile.unparsable = false ∧
    (load_records StoreFile.unparsable = [] ∧
      ∃ R, save_or_update_record "u@x.y" [("email", Val.str "u@x.y")] (Val.str "t0")
        (load_records StoreFile.unparsable) = [R]) :=
  ⟨rfl, store_corrupt_treated_as_empty StoreFile.unparsable rfl "u@x.y"
    [("email", Val.str "u@x.y")] (Val.str "t0")⟩

/-- C3 counterexample: with metrics `(-13, 0.5, 4, 2000, 500)` the peak
rule fires on its low branch (`0.5 < 0.7`), yet the headline is the
generic balanced message — so the headline is NOT the message of the
first rule whose low or high branch fires, and the balanced message is
not reserved for the no-rule-fires case. -/
theorem headline_not_first_firing_rule_cex :
    ((1 : ℚ) / 2 < 0.7) ∧
    (professional_tips (-13) (1 / 2) 4 2000 500).1 = mainBalanced := by
  constructor
  · norm_num
  · norm_num [professional_tips]

set_option maxHeartbeats 1000000 in
/-- C3 amended: the headline is first-match-wins over the four
headline-bearing branches only — loudness high, loudness low, peak high,
crest low, evaluated in the order loudness, peak, crest — while the
peak-low, crest-high, dominant-frequency and centroid branches never set
the headline; the generic balanced message appears exactly when none of
the four headline-bearing branches fires. -/
theorem headline_first_match_over_headline_branches
    (lufs peak crest centroid dominant_freq : ℚ) :
    (professional_tips lufs peak crest centroid dominant_freq).1 =
      headline_rule lufs peak crest := by
  unfold professional_tips headline_rule
  split_ifs <;> rfl

set_option maxHeartbeats 1000000 in
/-- C10: the advisory function always returns exactly five tips, one per
metric in the fixed order loudness, peak, crest factor, dominant
frequency, centroid — every branch, in-range ones included, contributes
its tip — while with the peak metric in range the explanations list is
strictly shorter than five (the in-range peak branch appends no
explanation). -/
theorem advisory_five_tips (lufs peak crest centroid dominant_freq : ℚ) :
    (professional_tips lufs peak crest centroid dominant_freq).2.1 =
      [loudnessTipOf lufs, peakTipOf peak, crestTipOf crest,
       domTipOf dominant_freq, centTipOf centroid] ∧
    (¬(peak > 0.98) → ¬(peak < 0.7) →
      (professional_tips lufs peak crest centroid dominant_freq).2.2.length < 5) := by
  constructor
  · unfold professional_tips loudnessTipOf peakTipOf crestTipOf domTipOf centTipOf
    split_ifs <;> rfl
  · intro h1 h2
    unfold professional_tips
    split_ifs <;> simp_all

/-- Witness for C10 at an in-range peak value. -/
theorem advisory_five_tips_witness :
    (professional_tips (-13) 0.8 4 2000 500).2.1 =
      [loudnessTipOf (-13), peakTipOf 0.8, crestTipOf 4, domTipOf 500, centTipOf 2000] ∧
    (professional_tips (-13) 0.8 4 2000 500).2.2.length < 5 :=
  ⟨(advisory_five_tips (-13) 0.8 4 2000 500).1,
   (advisory_five_tips (-13) 0.8 4 2000 500).2 (by norm_num) (by norm_num)⟩

/-! ### Identity resolution lemmas and claims C2 and C4 -/


theorem uploadRecord_email (email F name : String) (v : AnalysisVals) :
    lookupVal (uploadRecord email F name v) "email" = some (Val.str email) := rfl

theorem uploadRecord_file_hash (email F name : String) (v : AnalysisVals) :
    lookupVal (uploadRecord email F name v) "file_hash" = some (Val.str F) := rfl

theorem uploadRecord_filename (email F name : String) (v : AnalysisVals) :
    lookupVal (uploadRecord email F name v) "filename" = some (Val.str name) := rfl

theorem build_project_filename_ne_empty (email : String) (n : Nat) (ext : String) :
    build_project_filename email n ext ≠ "" := by
  intro h
  have hlen := congrArg String.length h
  simp only [build_project_filename, String.length_append] at hlen
  have h10 : ("__project_" : String).length = 10 := rfl
  rw [h10] at hlen
  have h0 : ("" : String).length = 0 := rfl
  rw [h0] at hlen
  omega

theorem resolveName_ne_empty (email F ext : String) (data : List Record) :
    resolveName email F ext data ≠ "" := by
  unfold resolveName
  split
  · split
    · split
      · exact build_project_filename_ne_empty email _ ext
      · assumption
    · exact build_project_filename_ne_empty email _ ext
  · exact build_project_filename_ne_empty email _ ext

theorem uploadStep_eq_save (U F ext now : String) (v : AnalysisVals) (data : List Record) :
    uploadStep U F ext now v data =
      save_or_update_record U (uploadRecord U F (resolveName U F ext data) v)
        (Val.str now) data := rfl

theorem uploadStep_cases (U F ext now : String) (v : AnalysisVals) (data : List Record)
    (hF : F ≠ "") :
    uploadStep U F ext now v data =
      match find_record_index U F data with
      | none => data ++ [dictSet (dictSet (uploadRecord U F (resolveName U F ext data) v)
          "created_at" (Val.str now)) "updated_at" (Val.str now)]
      | some j => data.set j (dictSet (dictUpdate (data.getD j [])
          (uploadRecord U F (resolveName U F ext data) v)) "updated_at" (Val.str now)) := by
  rw [uploadStep_eq_save]
  unfold save_or_update_record
  rw [upsertIndex_eq_find U _ data (uploadRecord_file_hash U F _ v) hF]

theorem lookupVal_hitRecord (r0 rec : Record) (now : Val) (k : String)
    (hku : k ≠ "updated_at") {v : Val} (hv : lookupVal rec k = some v) :
    lookupVal (dictSet (dictUpdate r0 rec) "updated_at" now) k = some v := by
  rw [lookupVal_dictSet, if_neg (fun h => hku h.symm), lookupVal_dictUpdate_some _ hv]

theorem uploadStep_state (U F ext now : String) (v : AnalysisVals) (data : List Record)
    (hF : F ≠ "") :
    ∃ j, find_record_index U F (uploadStep U F ext now v data) = some j ∧
      lookupVal ((uploadStep U F ext now v data).getD j []) "email" = some (Val.str U) ∧
      lookupVal ((uploadStep U F ext now v data).getD j []) "file_hash" = some (Val.str F) ∧
      lookupVal ((uploadStep U F ext now v data).getD j []) "filename" =
        some (Val.str (resolveName U F ext data)) := by
  rw [uploadStep_cases U F ext now v data hF]
  cases hf : find_record_index U F data with
  | none =>
    refine ⟨data.length, ?_, ?_, ?_, ?_⟩
    · unfold find_record_index at hf ⊢
      rw [find_first_append_singleton hf, matchesKey_true
        (by rw [lookupVal_stamped _ _ _ (by decide) (by decide)]
            exact uploadRecord_email U F _ v)
        (by rw [lookupVal_stamped _ _ _ (by decide) (by decide)]
            exact uploadRecord_file_hash U F _ v)]
      simp
    · rw [getD_append_length, lookupVal_stamped _ _ _ (by decide) (by decide)]
      exact uploadRecord_email U F _ v
    · rw [getD_append_length, lookupVal_stamped _ _ _ (by decide) (by decide)]
      exact uploadRecord_file_hash U F _ v
    · rw [getD_append_length, lookupVal_stamped _ _ _ (by decide) (by decide)]
      exact uploadRecord_filename U F _ v
  | some j =>
    have hjlt : j < data.length := find_first_lt_length hf
    have he : lookupVal (dictSet (dictUpdate (data.getD j [])
        (uploadRecord U F (resolveName U F ext data) v)) "updated_at" (Val.str now))
        "email" = some (Val.str U) :=
      lookupVal_hitRecord _ _ _ _ (by decide) (uploadRecord_email U F _ v)
    have hh : lookupVal (dictSet (dictUpdate (data.getD j [])
        (uploadRecord U F (resolveName U F ext data) v)) "updated_at" (Val.str now))
        "file_hash" = some (Val.str F) :=
      lookupVal_hitRecord _ _ _ _ (by decide) (uploadRecord_file_hash U F _ v)
    have hn : lookupVal (dictSet (dictUpdate (data.getD j [])
        (uploadRecord U F (resolveName U F ext data) v)) "updated_at" (Val.str now))
        "filename" = some (Val.str (resolveName U F ext data)) :=
      lookupVal_hitRecord _ _ _ _ (by decide) (uploadRecord_filename U F _ v)
    refine ⟨j, ?_, ?_, ?_, ?_⟩
    · unfold find_record_index at hf ⊢
      exact find_first_set hf (matchesKey_true he hh)
    · rw [getD_set_self (by simpa using hjlt)]
      exact he
    · rw [getD_set_self (by simpa using hjlt)]
      exact hh
    · rw [getD_set_self (by simpa using hjlt)]
      exact hn

theorem resolveName_after_hit (U F ext : String) (d : List Record) (j : Nat) {s : String}
    (hfind : find_record_index U F d = some j)
    (hname : lookupVal (d.getD j []) "filename" = some (Val.str s)) (hs : s ≠ "") :
    resolveName U F ext d = s := by
  unfold resolveName
  simp only [hfind]
  simp only [hname]
  simp [hs]

theorem projNumStep_proj (email : String) (acc : Nat) {a b : Record}
    (he : lookupVal a "email" = lookupVal b "email")
    (hn : lookupVal a "filename" = lookupVal b "filename") :
    projNumStep email acc a = projNumStep email acc b := by
  unfold projNumStep
  rw [he, hn]

theorem foldl_projNumStep_congr (email : String) {l1 l2 : List Record}
    (h : List.Forall₂ (fun a b =>
      lookupVal a "email" = lookupVal b "email" ∧
      lookupVal a "filename" = lookupVal b "filename") l1 l2) :
    ∀ acc : Nat, l1.foldl (projNumStep email) acc = l2.foldl (projNumStep email) acc := by
  induction h with
  | nil => intro acc; rfl
  | cons hab htl ih =>
    intro acc
    simp only [List.foldl_cons]
    rw [projNumStep_proj email acc hab.1 hab.2]
    exact ih _

theorem get_next_congr (email : String) {l1 l2 : List Record}
    (h : List.Forall₂ (fun a b =>
      lookupVal a "email" = lookupVal b "email" ∧
      lookupVal a "filename" = lookupVal b "filename") l1 l2) :
    get_next_project_number email l1 = get_next_project_number email l2 := by
  unfold get_next_project_number
  rw [foldl_projNumStep_congr email h 0]

theorem forall2_proj_refl {R : Record → Record → Prop} (hrefl : ∀ a, R a a) :
    ∀ l : List Record, List.Forall₂ R l l
  | [] => List.Forall₂.nil
  | a :: l => List.Forall₂.cons (hrefl a) (forall2_proj_refl hrefl l)

theorem forall2_proj_set {R : Record → Record → Prop} (hrefl : ∀ a, R a a) :
    ∀ (l : List Record) (j : Nat) (x : Record), R x (l.getD j []) →
      List.Forall₂ R (l.set j x) l
  | [], _, _, _ => List.Forall₂.nil
  | a :: l, 0, x, hx => List.Forall₂.cons hx (forall2_proj_refl hrefl l)
  | a :: l, j + 1, x, hx =>
      List.Forall₂.cons (hrefl a) (forall2_proj_set hrefl l j x hx)

/-- C2: resolving and storing the same `(userId, bytes)` pair a second
time (the first run having persisted its record) yields the same stored
path — hence the same embedded project number — and leaves the per-user
project counter unchanged. `ext2` may differ from `ext`: the hit path
reuses the stored filename and never consults the new extension. The
filename-shape hypothesis restricts to stores the app can write (a
truthy non-string `filename` would raise in the source). -/
theorem resolver_idempotent (U F ext ext2 now1 now2 : String) (v1 v2 : AnalysisVals)
    (data : List Record) (hF : F ≠ "")
    (hfn : ∀ r ∈ data, ∀ q : ℚ, lookupVal r "filename" ≠ some (Val.num q)) :
    resolveName U F ext2 (uploadStep U F ext now1 v1 data) =
      resolveName U F ext data ∧
    searchProj (resolveName U F ext2 (uploadStep U F ext now1 v1 data)).toList =
      searchProj (resolveName U F ext data).toList ∧
    get_next_project_number U
        (uploadStep U F ext2 now2 v2 (uploadStep U F ext now1 v1 data)) =
      get_next_project_number U (uploadStep U F ext now1 v1 data) := by
  obtain ⟨j, hfind, hje, hjf, hjn⟩ := uploadStep_state U F ext now1 v1 data hF
  have hp1 : resolveName U F ext2 (uploadStep U F ext now1 v1 data) =
      resolveName U F ext data :=
    resolveName_after_hit U F ext2 _ j hfind hjn (resolveName_ne_empty U F ext data)
  refine ⟨hp1, by rw [hp1], ?_⟩
  have hstep2 := uploadStep_cases U F ext2 now2 v2 (uploadStep U F ext now1 v1 data) hF
  rw [hfind] at hstep2
  rw [hstep2]
  apply get_next_congr
  apply forall2_proj_set (fun a => ⟨rfl, rfl⟩)
  constructor
  · rw [lookupVal_hitRecord _ _ _ _ (by decide) (uploadRecord_email U F _ v2), hje]
  · rw [lookupVal_hitRecord _ _ _ _ (by decide) (uploadRecord_filename U F _ v2), hjn, hp1]

/-- Witness for C2: re-uploading the same content twice for a fresh
user. -/
theorem resolver_idempotent_witness :
    (("ffff" : String) ≠ "" ∧
      (∀ r ∈ ([] : List Record), ∀ q : ℚ,
        lookupVal r "filename" ≠ some (Val.num q))) ∧
    (resolveName "user@x.y" "ffff" ".wav"
        (uploadStep "user@x.y" "ffff" ".wav" "t1" sampleVals []) =
      resolveName "user@x.y" "ffff" ".wav" [] ∧
     searchProj (resolveName "user@x.y" "ffff" ".wav"
        (uploadStep "user@x.y" "ffff" ".wav" "t1" sampleVals [])).toList =
      searchProj (resolveName "user@x.y" "ffff" ".wav" []).toList ∧
     get_next_project_number "user@x.y"
        (uploadStep "user@x.y" "ffff" ".wav" "t2" sampleVals
          (uploadStep "user@x.y" "ffff" ".wav" "t1" sampleVals [])) =
      get_next_project_number "user@x.y"
        (uploadStep "user@x.y" "ffff" ".wav" "t1" sampleVals [])) :=
  ⟨⟨by decide, fun r hr => absurd hr (List.not_mem_nil r)⟩,
   resolver_idempotent "user@x.y" "ffff" ".wav" ".wav" "t1" "t2" sampleVals sampleVals
     [] (by decide) (fun r hr => absurd hr (List.not_mem_nil r))⟩

theorem le_foldr_max {n : Nat} {l : List Nat} (h : n ∈ l) : n ≤ l.foldr max 0 := by
  induction l with
  | nil => cases h
  | cons a l ih =>
    rcases List.mem_cons.mp h with rfl | h'
    · exact Nat.le_max_left _ _
    · exact Nat.le_trans (ih h') (Nat.le_max_right _ _)

theorem projNumStep_eq_parsed (email : String) (acc : Nat) (r : Record) :
    projNumStep email acc r =
      if lookupVal r "email" = some (Val.str email) then
        match parsedProjectNumber r with
        | some n => max acc n
        | none => acc
      else acc := by
  unfold projNumStep parsedProjectNumber
  by_cases hm : lookupVal r "email" = some (Val.str email)
  · simp only [hm, if_true]
    cases hn : lookupVal r "filename" with
    | none => rfl
    | some v =>
      cases v with
      | num q => rfl
      | str t =>
        show (match searchProj t.toList with
              | some n => if n > acc then n else acc
              | none => acc) =
            (match searchProj t.toList with
              | some n => max acc n
              | none => acc)
        cases hp : searchProj t.toList with
        | none => rfl
        | some n =>
          show (if n > acc then n else acc) = max acc n
          rw [Nat.max_def]
          by_cases hgt : n > acc
          · rw [if_pos hgt, if_pos (Nat.le_of_lt hgt)]
          · rw [if_neg hgt]
            by_cases hle : acc ≤ n
            · rw [if_pos hle]
              omega
            · rw [if_neg hle]
  · simp [hm]

theorem foldl_projNumStep_max (email : String) :
    ∀ (data : List Record) (acc : Nat),
      data.foldl (projNumStep email) acc =
        max acc ((userProjectNumbers email data).foldr max 0) := by
  intro data
  induction data with
  | nil => intro acc; simp [userProjectNumbers]
  | cons r tl ih =>
    intro acc
    simp only [List.foldl_cons]
    rw [ih, projNumStep_eq_parsed]
    unfold userProjectNumbers
    rw [List.filter_cons]
    by_cases hm : lookupVal r "email" = some (Val.str email)
    · simp only [hm, if_true, decide_True, List.filterMap_cons]
      cases hp : parsedProjectNumber r with
      | none =>
        unfold userProjectNumbers at ih
        rfl
      | some n =>
        simp only [List.foldr_cons]
        unfold userProjectNumbers at ih
        exact Nat.max_assoc acc n _
    · have hdm : decide (lookupVal r "email" = some (Val.str email)) = false := by
        simp [hm]
      simp only [hdm, Bool.false_eq_true, if_false]
      rw [if_neg hm]

theorem get_next_eq_userProjectNumbers (email : String) (data : List Record) :
    get_next_project_number email data =
      (userProjectNumbers email data).foldr max 0 + 1 := by
  unfold get_next_project_number
  rw [foldl_projNumStep_max email data 0]
  simp

/-- C4 amended: on a fingerprint miss the resolver allocates
`1 + (maximum project number parsed from the filenames of the user's
existing records)` (1 when none parses) and derives the stable filename
from it; the allocated number is strictly greater than every project
number parsed from the user's existing records. (It is NOT always
strictly greater than every number previously assigned: when the
sanitized email prefix itself contains a `__project_<digits>.` pattern,
the leftmost-match parse returns the prefix number instead of the
assigned one — see the counterexample.) -/
theorem next_project_number_allocation (email F ext : String) (data : List Record)
    (h : find_record_index email F data = none) :
    get_next_project_number email data =
      (userProjectNumbers email data).foldr max 0 + 1 ∧
    resolveName email F ext data =
      build_project_filename email (get_next_project_number email data) ext ∧
    ∀ n ∈ userProjectNumbers email data, n < get_next_project_number email data := by
  refine ⟨get_next_eq_userProjectNumbers email data, ?_, ?_⟩
  · unfold resolveName
    simp only [h]
  · intro n hn
    rw [get_next_eq_userProjectNumbers]
    have := le_foldr_max hn
    omega

/-- C4 counterexample: for the valid user identifier
`a__project_2.b@x.y` (whose sanitized prefix contains
`__project_2.`), the first two uploads are assigned project numbers 1
and 3, but a third upload with fresh content is allocated project
number 3 again — `get_next_project_number` still yields 3 because the
leftmost regex match in both stored filenames parses the prefix's 2 —
so the allocated number is NOT strictly greater than every previously
assigned number, and even the derived filename collides with the second
project's. -/
theorem project_number_reuse_cex :
    find_record_index "a__project_2.b@x.y" "cccc"
        (uploadStep "a__project_2.b@x.y" "bbbb" ".wav" "t2" sampleVals
          (uploadStep "a__project_2.b@x.y" "aaaa" ".wav" "t1" sampleVals [])) = none ∧
    get_next_project_number "a__project_2.b@x.y"
        (uploadStep "a__project_2.b@x.y" "aaaa" ".wav" "t1" sampleVals []) = 3 ∧
    get_next_project_number "a__project_2.b@x.y"
        (uploadStep "a__project_2.b@x.y" "bbbb" ".wav" "t2" sampleVals
          (uploadStep "a__project_2.b@x.y" "aaaa" ".wav" "t1" sampleVals [])) = 3 ∧
    resolveName "a__project_2.b@x.y" "bbbb" ".wav"
        (uploadStep "a__project_2.b@x.y" "aaaa" ".wav" "t1" sampleVals []) =
      "a__project_2.b__project_3.wav" ∧
    resolveName "a__project_2.b@x.y" "cccc" ".wav"
        (uploadStep "a__project_2.b@x.y" "bbbb" ".wav" "t2" sampleVals
          (uploadStep "a__project_2.b@x.y" "aaaa" ".wav" "t1" sampleVals [])) =
      "a__project_2.b__project_3.wav" :=
  ⟨by decide, by decide, by decide, by decide, by decide⟩


/-- Witness for C4 at a fresh user with an empty store. -/
theorem next_project_number_allocation_witness :
    find_record_index "u@x.y" "ab" ([] : List Record) = none ∧
    (get_next_project_number "u@x.y" [] =
        (userProjectNumbers "u@x.y" []).foldr max 0 + 1 ∧
      resolveName "u@x.y" "ab" ".wav" [] =
        build_project_filename "u@x.y" (get_next_project_number "u@x.y" []) ".wav" ∧
      ∀ n ∈ userProjectNumbers "u@x.y" [], n < get_next_project_number "u@x.y" []) :=
  ⟨by decide, next_project_number_allocation "u@x.y" "ab" ".wav" [] (by decide)⟩

/-! ### Analysis pipeline lemmas and claims C5, C6, C7 -/


/-- C6: when the analysis raises — decoding fails or any later step of
the try block raises after the bytes were stored — the attempt leaves
the persisted record collection exactly as it was (the only store write
sits after the analysis) and surfaces the single user-visible error
banner. -/
theorem decode_failure_atomic {A : Type} (email F ext now : String) (e : String)
    (mk : String → A → Record) (data : List Record) :
    uploadAttempt email F ext now (Except.error e) mk data =
      (data, some (errorMessage e)) := rfl

/-- C7 amended: a zero-length sample buffer makes the extraction step
fail (numpy raises on the empty `max` reduction) rather than return
metrics, and the failure propagates to the same top-level handler as a
decode failure: the store is untouched and the generic user-visible
Unsupported-or-corrupted-file banner is shown — there is no distinct,
non-user-visible `InvalidInput` error kind anywhere in the code. -/
theorem empty_input_raises (sr : ℝ) (email F ext now : String)
    (mk : String → MetricsR → Record) (data : List Record) :
    analyze [] sr = Except.error emptyReduceMsg ∧
    uploadAttempt email F ext now (analyze [] sr) mk data =
      (data, some (errorMessage emptyReduceMsg)) :=
  ⟨rfl, rfl⟩

/-- C7 counterexample: at the concrete empty buffer the failure comes
out of the `UnsupportedOrCorruptFile` user-visible path (the single
banner of the top-level handler), not a distinct `InvalidInput` kind
invisible to the user. -/
theorem empty_input_same_banner_cex :
    analyze [] 44100 = Except.error emptyReduceMsg ∧
    uploadAttempt "u@x.y" "ab" ".wav" "t0" (analyze [] 44100)
        (fun _ (_ : MetricsR) => ([] : Record)) [] =
      ([], some (errorMessage emptyReduceMsg)) :=
  ⟨rfl, rfl⟩

theorem foldl_max_eq_foldr (l : List ℝ) :
    ∀ a : ℝ, 0 ≤ a → (∀ x ∈ l, 0 ≤ x) → l.foldl max a = max a (l.foldr max 0) := by
  induction l with
  | nil =>
    intro a ha _
    simp [max_eq_left ha]
  | cons x xs ih =>
    intro a ha hl
    simp only [List.foldl_cons, List.foldr_cons]
    rw [ih (max a x) (le_max_of_le_left ha)
      (fun y hy => hl y (List.mem_cons_of_mem x hy)), max_assoc]

theorem npMax_abs_eq_peak_spec (samples : List ℝ) (h : samples ≠ []) :
    npMax (samples.map fun s => |s|) = peak_spec samples := by
  cases samples with
  | nil => exact absurd rfl h
  | cons s rest =>
    unfold npMax peak_spec
    simp only [List.map_cons, List.foldr_cons]
    rw [foldl_max_eq_foldr _ _ (abs_nonneg s)
      (fun y hy => by
        obtain ⟨z, _, rfl⟩ := List.mem_map.mp hy
        exact abs_nonneg z)]

theorem rfftfreq_eq_spec (n : Nat) (sr : ℝ) :
    rfftfreq n (1 / sr) = freqs_spec n sr := by
  unfold rfftfreq freqs_spec
  apply List.map_congr_left
  intro k _
  rw [one_div, inv_mul_eq_div, div_div_eq_mul_div]

theorem argmaxAux_lt (rest : List ℝ) :
    ∀ (bi : Nat) (bv : ℝ) (i : Nat), bi < i →
      argmaxAux bi bv i rest < i + rest.length := by
  induction rest with
  | nil =>
    intro bi bv i hbi
    simpa [argmaxAux] using hbi
  | cons v r ih =>
    intro bi bv i hbi
    unfold argmaxAux
    by_cases hv : bv < v
    · rw [if_pos hv]
      have := ih i v (i + 1) (Nat.lt_succ_self i)
      simp only [List.length_cons]
      omega
    · rw [if_neg hv]
      have := ih bi bv (i + 1) (Nat.lt_succ_of_lt hbi)
      simp only [List.length_cons]
      omega

theorem npArgmax_lt_length (l : List ℝ) (h : l ≠ []) : npArgmax l < l.length := by
  cases l with
  | nil => exact absurd rfl h
  | cons v rest =>
    unfold npArgmax
    have := argmaxAux_lt rest 0 v 1 Nat.one_pos
    simp only [List.length_cons]
    omega

theorem getD_map_range (f : Nat → ℝ) (m k : Nat) (h : k < m) :
    (((List.range m).map f).getD k 0) = f k := by
  rw [List.getD_eq_getElem?_getD, List.getElem?_map, List.getElem?_range h]
  rfl

/-- C5: the source analysis block computes exactly the specified
formulas — duration = count/rate, rms = sqrt of the mean square, peak =
maximum absolute amplitude, crestFactor = peak/(rms+eps),
loudnessProxy = 20*log10(rms+eps), spectralCentroid =
sum(freq*mag)/(sum(mag)+eps) over the one-sided rfft magnitude spectrum
with bin frequencies k*sr/N, and dominantFrequency = the frequency of
the maximum-magnitude bin — and the pipeline returns them for every
non-empty buffer. -/
theorem extraction_computes_spec_formulas (samples : List ℝ) (sr : ℝ)
    (h : samples ≠ []) :
    analyze samples sr = Except.ok (extract_metrics samples sr) ∧
    (extract_metrics samples sr).duration = samples.length / sr ∧
    (extract_metrics samples sr).rms = rms_spec samples ∧
    (extract_metrics samples sr).peak = peak_spec samples ∧
    (extract_metrics samples sr).crest_factor =
      peak_spec samples / (rms_spec samples + epsGuard) ∧
    (extract_metrics samples sr).lufs = 20 * log10 (rms_spec samples + epsGuard) ∧
    (extract_metrics samples sr).centroid = centroid_spec samples sr ∧
    (extract_metrics samples sr).dominant_freq = dominant_spec samples sr := by
  have hne : samples.isEmpty = false := by
    cases samples with
    | nil => exact absurd rfl h
    | cons a l => rfl
  have hrms : Real.sqrt (npMean (samples.map fun s => s ^ 2)) = rms_spec samples := by
    unfold npMean rms_spec
    rw [List.length_map]
  have hpeak := npMax_abs_eq_peak_spec samples h
  refine ⟨?_, rfl, hrms, hpeak, ?_, ?_, ?_, ?_⟩
  · simp [analyze, hne]
  · show npMax (samples.map fun s => |s|) /
        (Real.sqrt (npMean (samples.map fun s => s ^ 2)) + epsGuard) = _
    rw [hrms, hpeak]
  · show 20 * Real.logb 10
        (Real.sqrt (npMean (samples.map fun s => s ^ 2)) + epsGuard) = _
    rw [hrms]
    unfold log10 Real.logb
    rfl
  · show (List.zipWith (fun a b => a * b) (rfftfreq samples.length (1 / sr))
        (rfftSpectrum samples)).sum / ((rfftSpectrum samples).sum + epsGuard) =
        centroid_spec samples sr
    rw [rfftfreq_eq_spec]
    rfl
  · show (rfftfreq samples.length (1 / sr)).getD (npArgmax (rfftSpectrum samples)) 0 = _
    rw [rfftfreq_eq_spec]
    unfold freqs_spec dominant_spec
    have hlen : npArgmax (rfftSpectrum samples) < samples.length / 2 + 1 := by
      have h1 : (rfftSpectrum samples).length = samples.length / 2 + 1 := by
        unfold rfftSpectrum
        rw [List.length_map, List.length_range]
      have h2 : rfftSpectrum samples ≠ [] := by
        intro hc
        rw [hc] at h1
        simp at h1
      have h3 := npArgmax_lt_length _ h2
      rw [h1] at h3
      exact h3
    exact getD_map_range _ _ _ hlen


/-- Witness for C5 at the one-sample signal `[1]` with rate 1. -/
theorem extraction_computes_spec_formulas_witness :
    (([(1 : ℝ)] : List ℝ) ≠ []) ∧
    (analyze [(1 : ℝ)] 1 = Except.ok (extract_metrics [(1 : ℝ)] 1) ∧
     (extract_metrics [(1 : ℝ)] 1).duration = (([(1 : ℝ)] : List ℝ)).length / 1 ∧
     (extract_metrics [(1 : ℝ)] 1).rms = rms_spec [(1 : ℝ)] ∧
     (extract_metrics [(1 : ℝ)] 1).peak = peak_spec [(1 : ℝ)] ∧
     (extract_metrics [(1 : ℝ)] 1).crest_factor =
       peak_spec [(1 : ℝ)] / (rms_spec [(1 : ℝ)] + epsGuard) ∧
     (extract_metrics [(1 : ℝ)] 1).lufs =
       20 * log10 (rms_spec [(1 : ℝ)] + epsGuard) ∧
     (extract_metrics [(1 : ℝ)] 1).centroid = centroid_spec [(1 : ℝ)] 1 ∧
     (extract_metrics [(1 : ℝ)] 1).dominant_freq = dominant_spec [(1 : ℝ)] 1) :=
  ⟨by simp, extraction_computes_spec_formulas [(1 : ℝ)] 1 (by simp)⟩

end MixTips
